import Mathlib

/-
Verification of the wintrap crate (src/lib.rs, src/futures.rs): a shallow
embedding in Lean 4 of the signal model, the TrapStack data structure, the
console-control bridge callback, the listener-thread dispatch closure and the
stream adapter, with theorems settling the specification claims.

Modelling conventions:
- Machine integers (DWORD, UINT, WPARAM, LPARAM, usize) are modelled as Nat;
  none of the operations performed on them can overflow except the usize
  decrement in decrement_trap_count, whose underflow (a Rust panic) is
  modelled as a fatal outcome.
- The HashMap from Signal to LinkedList of handlers is modelled extensionally
  as a function from Signal to Option (List H): the source only ever uses
  get, entry/or_insert_with, contains_key and remove on it (it never iterates
  the map), so the unordered HashMap is exactly this partial map. A present
  key maps to some list, an absent key to none; LinkedList push_back appends
  at the end of the list, back reads the last element, pop_back removes it.
- Handlers (Arc closures in the source) are values of an abstract type H;
  cloning an Arc yields the same value.
- Rust panics / failed assertions / unreachable arms are modelled as the
  none case of an Option-valued result.
- Outcomes of the external OS collaborator calls (SetConsoleCtrlHandler,
  window creation, PostMessage, EnumWindows) are passed in as explicit
  parameters, since those calls live in the out-of-scope binding layer.
-/

namespace Wintrap

/-- Console control event code CTRL_C_EVENT (winapi wincon, value 0). -/
def CTRL_C_EVENT : Nat := 0

/-- Console control event code CTRL_BREAK_EVENT (winapi wincon, value 1). -/
def CTRL_BREAK_EVENT : Nat := 1

/-- Console control event code CTRL_CLOSE_EVENT (winapi wincon, value 2). -/
def CTRL_CLOSE_EVENT : Nat := 2

/-- Window message code WM_CLOSE (winapi winuser, value 0x0010). -/
def WM_CLOSE : Nat := 16

/-- Window message code WM_QUIT (winapi winuser, value 0x0012). -/
def WM_QUIT : Nat := 18

/-- The four abstracted signals (src/lib.rs, enum Signal). -/
inductive Signal where
  | CtrlC
  | CtrlBreak
  | CloseConsole
  | CloseWindow
deriving DecidableEq

instance : Fintype Signal :=
  ⟨⟨{Signal.CtrlC, Signal.CtrlBreak, Signal.CloseConsole, Signal.CloseWindow}, by decide⟩,
   by intro x; cases x <;> decide⟩

/-- Signal::from_console_ctrl_event (src/lib.rs lines 95-102): decode a raw
console control event code to a Signal; unknown codes decode to none. -/
def Signal.from_console_ctrl_event (event : Nat) : Option Signal :=
  if event = CTRL_C_EVENT then some .CtrlC
  else if event = CTRL_BREAK_EVENT then some .CtrlBreak
  else if event = CTRL_CLOSE_EVENT then some .CloseConsole
  else none

/-- Signal::from_window_message (src/lib.rs lines 104-112): decode a pumped
window message. `wmConsoleCtrl` is the process-wide registered message code
WM_CONSOLE_CTRL (obtained from RegisterWindowMessage at startup; registered
message codes lie in 0xC000-0xFFFF and in particular differ from WM_CLOSE).
The lparam argument is ignored by the source. -/
def Signal.from_window_message (wmConsoleCtrl : Nat) (msg : Nat) (wparam : Nat)
    (_lparam : Nat) : Option Signal :=
  if msg = WM_CLOSE then some .CloseWindow
  else if msg = wmConsoleCtrl then Signal.from_console_ctrl_event wparam
  else none

/-- The console-control event code carried by each Signal variant, read off
the match arms of Signal::from_console_ctrl_event; this is the claim's
native_event encoding. CloseWindow has no console-control encoding. -/
def consoleCtrlEventOf : Signal → Option Nat
  | .CtrlC => some CTRL_C_EVENT
  | .CtrlBreak => some CTRL_BREAK_EVENT
  | .CloseConsole => some CTRL_CLOSE_EVENT
  | .CloseWindow => none

/-- The two error kinds of the crate (src/lib.rs, enum Error), each carrying
the native OS error code. -/
inductive Error where
  | SetConsoleCtrlHandler (code : Nat)
  | CreateWindow (code : Nat)
deriving DecidableEq

/-- Listener-thread state (src/lib.rs, struct TrapThreadData): the spawned
thread's id and the hidden window's handle. The JoinHandle is not modelled. -/
structure TrapThreadData where
  thread_id : Nat
  hwnd : Nat
deriving DecidableEq

/-- TrapThreadData::new (src/lib.rs lines 297-331). `setCtrl` is the outcome
of the set_console_ctrl_handler collaborator call (none for success, some
code for failure); `windowResult` is the outcome of Window::new inside the
spawned thread (thread id and hwnd on success, OS code on failure). A
registration failure is mapped to Error::SetConsoleCtrlHandler and returned.
A window-creation failure is NOT mapped to Error::CreateWindow: the source
unwraps it inside the spawned thread, so the thread panics, the rendezvous
channel is dropped, and the caller's recv().unwrap() panics as well - the
outer none models this fatal outcome. -/
def TrapThreadData.create (setCtrl : Option Nat) (windowResult : Except Nat (Nat × Nat)) :
    Option (Except Error TrapThreadData) :=
  match setCtrl with
  | some code => some (.error (.SetConsoleCtrlHandler code))
  | none =>
    match windowResult with
    | .ok p => some (.ok ⟨p.1, p.2⟩)
    | .error _ => none

/-- The callbacks map (src/lib.rs, type TrapCallbacks): HashMap from Signal
to LinkedList of handlers, modelled extensionally as a partial map. -/
abbrev TrapCallbacks (H : Type) := Signal → Option (List H)

/-- One step of the loop body of TrapStack::push_trap (src/lib.rs lines
227-232): callbacks.entry(signal).or_insert_with(LinkedList::new)
.push_back(handler) - append the handler at the back of the signal's list,
creating a one-element list if the key is absent. -/
def entry_push_back {H : Type} (cb : TrapCallbacks H) (s : Signal) (h : H) :
    TrapCallbacks H :=
  fun t => if t = s then some ((cb s).getD [] ++ [h]) else cb t

/-- One step of the loop body of TrapStack::pop_trap (src/lib.rs lines
238-243): get_mut(signal).unwrap(), pop_back().unwrap(), and remove the key
if its list became empty. The unwrap on an absent key and the unwrap of
pop_back on an empty list are panics, modelled as none. -/
def pop_back_at {H : Type} (cb : TrapCallbacks H) (s : Signal) :
    Option (TrapCallbacks H) :=
  match cb s with
  | none => none
  | some l =>
    if l.isEmpty then none
    else some fun t =>
      if t = s then (if l.dropLast.isEmpty then none else some l.dropLast) else cb t

/-- The process-wide trap stack (src/lib.rs, struct TrapStack). -/
structure TrapStack (H : Type) where
  num_traps : Nat
  trap_thread_data : Option TrapThreadData
  callbacks : TrapCallbacks H

/-- TrapStack::new (src/lib.rs lines 196-202). -/
def TrapStack.new (H : Type) : TrapStack H :=
  { num_traps := 0, trap_thread_data := none, callbacks := fun _ => none }

/-- TrapStack::increment_trap_count (src/lib.rs lines 204-211). `newData` is
the outcome of the TrapThreadData::new call made on the 0 to 1 transition.
The source increments num_traps first and propagates a failure of
TrapThreadData::new with the question-mark operator without undoing the
increment, so the state component of the result carries the incremented
count even on the error path. -/
def TrapStack.increment_trap_count {H : Type} (st : TrapStack H)
    (newData : Except Error TrapThreadData) : TrapStack H × Option Error :=
  let st1 : TrapStack H := { st with num_traps := st.num_traps + 1 }
  if st1.num_traps = 1 then
    match newData with
    | .ok d => ({ st1 with trap_thread_data := some d }, none)
    | .error e => (st1, some e)
  else (st1, none)

/-- TrapStack::decrement_trap_count (src/lib.rs lines 213-219). The usize
decrement underflows (panics) when num_traps is zero, modelled as none; on
the 1 to 0 transition the listener state is dropped. -/
def TrapStack.decrement_trap_count {H : Type} (st : TrapStack H) :
    Option (TrapStack H) :=
  match st.num_traps with
  | 0 => none
  | n + 1 =>
    some { st with num_traps := n,
                   trap_thread_data := if n = 0 then none else st.trap_thread_data }

/-- The for-loop of TrapStack::push_trap over its signal slice, appending the
handler at the back of each listed signal's stack in order. -/
def push_all {H : Type} (h : H) (cb : TrapCallbacks H) : List Signal → TrapCallbacks H
  | [] => cb
  | s :: rest => push_all h (entry_push_back cb s h) rest

/-- The for-loop of TrapStack::pop_trap over its signal slice, removing the
back of each listed signal's stack in order; none models a panic. -/
def pop_all {H : Type} (cb : TrapCallbacks H) : List Signal → Option (TrapCallbacks H)
  | [] => some cb
  | s :: rest =>
    match pop_back_at cb s with
    | some cb1 => pop_all cb1 rest
    | none => none

/-- TrapStack::push_trap (src/lib.rs lines 221-234): increment the count
(creating the listener state on the first activation), then append the
handler to each listed signal's stack. On an increment failure the question
mark returns the error before the callbacks are touched. -/
def TrapStack.push_trap {H : Type} (st : TrapStack H) (signals : List Signal)
    (h : H) (newData : Except Error TrapThreadData) : TrapStack H × Option Error :=
  match st.increment_trap_count newData with
  | (st1, some e) => (st1, some e)
  | (st1, none) => ({ st1 with callbacks := push_all h st1.callbacks signals }, none)

/-- TrapStack::pop_trap (src/lib.rs lines 236-245): decrement the count
(dropping the listener state on the last deactivation), then pop the back of
each listed signal's stack; none models a panic. -/
def TrapStack.pop_trap {H : Type} (st : TrapStack H) (signals : List Signal) :
    Option (TrapStack H) :=
  match st.decrement_trap_count with
  | none => none
  | some st1 =>
    match pop_all st1.callbacks signals with
    | some cb => some { st1 with callbacks := cb }
    | none => none

/-- TrapStack::has_handler_for (src/lib.rs lines 247-249):
callbacks.contains_key(signal). -/
def TrapStack.has_handler_for {H : Type} (st : TrapStack H) (s : Signal) : Bool :=
  (st.callbacks s).isSome

/-- Modelled from the spec: the windows::enum_windows wrapper (the windows
module of this repository is not under src/). Per the spec's close-with-no-
handler fallback and the source comment at src/lib.rs lines 276-277,
completing the enumeration with every callback returning TRUE means no other
owned window was found, and the caller exits exactly when the wrapper returns
false; so the wrapper reports whether the enumeration was cut short by a
callback returning FALSE. `ws` is the list of all top-level window handles
presented by the OS. -/
def enum_windows (proc : Nat → Bool) (ws : List Nat) : Bool :=
  ws.any fun w => !proc w

/-- TrapStack::exit_if_only_window (src/lib.rs lines 251-287). `ws` is the
list of all top-level window handles, `pidOf` maps a window handle to its
owning process id (GetWindowThreadProcessId), `myPid` is this process's id.
The enumeration callback returns TRUE for the listener's own window, FALSE
(stop: found another owned window) for any other window of this process, and
TRUE otherwise. Result: some true models process::exit(0), some false models
returning without action, none models the unreachable arm taken when no
listener state exists. -/
def TrapStack.exit_if_only_window {H : Type} (st : TrapStack H) (ws : List Nat)
    (pidOf : Nat → Nat) (myPid : Nat) : Option Bool :=
  match st.trap_thread_data with
  | some d =>
    some (!enum_windows
      (fun hwnd => if hwnd = d.hwnd then true
                   else if pidOf hwnd = myPid then false else true) ws)
  | none => none

/-- The observable outcome of one iteration of the event-pump dispatch
closure: invoke exactly one handler, terminate the process with status 0,
do nothing, or hit a panic / unreachable arm. -/
inductive DispatchResult (H : Type) where
  | invoke (h : H) (s : Signal)
  | exitProcess
  | ignored
  | fatal
deriving DecidableEq

/-- The dispatch closure passed to run_event_loop inside TrapThreadData::new
(src/lib.rs lines 308-322): decode the pumped message; if it is a known
signal and the callbacks map has a (necessarily non-empty) list for it,
invoke the back of that list - the most recently pushed handler - on the
signal; if there is no entry and the message is WM_CLOSE, run the
exit-if-sole-window policy; otherwise do nothing. -/
def run_event_loop_step {H : Type} (st : TrapStack H) (wmConsoleCtrl : Nat)
    (msg : Nat) (wparam : Nat) (lparam : Nat) (ws : List Nat)
    (pidOf : Nat → Nat) (myPid : Nat) : DispatchResult H :=
  match Signal.from_window_message wmConsoleCtrl msg wparam lparam with
  | some signal =>
    match st.callbacks signal with
    | some callback_list =>
      match callback_list.getLast? with
      | some cb => .invoke cb signal
      | none => .fatal
    | none =>
      if msg = WM_CLOSE then
        match st.exit_if_only_window ws pidOf myPid with
        | some true => .exitProcess
        | some false => .ignored
        | none => .fatal
      else .ignored
  | none => .ignored

/-- TrapThreadData::enqueue_ctrl_event (src/lib.rs lines 333-336): the
post_message call forwarding a raw control event to the listener's hidden
window as a WM_CONSOLE_CTRL message, described by its arguments
(hwnd, message code, wparam, lparam). -/
def TrapThreadData.enqueue_ctrl_event (d : TrapThreadData) (wmConsoleCtrl : Nat)
    (event : Nat) : Nat × Nat × Nat × Nat :=
  (d.hwnd, wmConsoleCtrl, event, 0)

/-- console_ctrl_handler (src/lib.rs lines 346-368), the bridge callback run
in the OS-constrained context. `postOk` is the outcome of the post_message
collaborator call inside enqueue_ctrl_event. The first component is the BOOL
returned to the OS (true = TRUE = handled); the second lists the handlers the
bridge itself invokes during the call, which per the source is none at all in
every branch. -/
def console_ctrl_handler {H : Type} (st : TrapStack H) (event : Nat)
    (postOk : Bool) : Bool × List H :=
  match Signal.from_console_ctrl_event event with
  | some signal =>
    if st.has_handler_for signal then
      match st.trap_thread_data with
      | some _ => if postOk then (true, []) else (false, [])
      | none => (false, [])
    else (false, [])
  | none => (false, [])

/-- Trap::new (src/lib.rs lines 166-175): assert that the current thread is
the captured owner thread (assert_eq aborts otherwise, modelled as none),
then push the trap; the guard remembers its signal list. Thread identities
are modelled as Nat. -/
def trap_new {H : Type} (owner : Nat) (current : Nat) (st : TrapStack H)
    (signals : List Signal) (h : H) (newData : Except Error TrapThreadData) :
    Option (TrapStack H × Except Error (List Signal)) :=
  if owner = current then
    match st.push_trap signals h newData with
    | (st1, none) => some (st1, .ok signals)
    | (st1, some e) => some (st1, .error e)
  else none

/-- Trap::drop (src/lib.rs lines 177-182): pop the guard's signals. The
source's Drop impl performs no owner-thread assertion and never consults the
current thread's identity (cross-thread destruction is instead ruled out
statically by the negative Send impl on Trap); the owner and current
parameters are recorded here only so that claims about thread identity can
be stated, and the body ignores them exactly as the source does. -/
def trap_drop {H : Type} (_owner : Nat) (_current : Nat) (st : TrapStack H)
    (signals : List Signal) : Option (TrapStack H) :=
  st.pop_trap signals

/-- Representation invariant of the callbacks map: no key is present with an
empty handler list (HashMap entries are created non-empty by push_trap and
removed by pop_trap as soon as they empty). -/
def WFcb {H : Type} (cb : TrapCallbacks H) : Prop :=
  ∀ s, cb s ≠ some []

instance {H : Type} [DecidableEq H] (cb : TrapCallbacks H) : Decidable (WFcb cb) :=
  inferInstanceAs (Decidable (∀ s, cb s ≠ some []))

/-- TrapStack states reachable from the initial state by any sequence of
push_trap steps (successful or failed, keeping the state component of the
result) and successful pop_trap steps. This is a superset of the balanced
sequences produced by nested Trap guards. -/
inductive Reachable (H : Type) : TrapStack H → Prop where
  | init : Reachable H (TrapStack.new H)
  | push (st : TrapStack H) (signals : List Signal) (h : H)
      (newData : Except Error TrapThreadData) :
      Reachable H st → Reachable H (st.push_trap signals h newData).1
  | pop (st st1 : TrapStack H) (signals : List Signal) :
      Reachable H st → st.pop_trap signals = some st1 → Reachable H st1

/-- The Async value of futures 0.1 as produced by SignalStream::poll (the
Poll result is always Ok in the source, so the error component is elided). -/
inductive Async (α : Type) where
  | Ready (v : α)
  | NotReady
deriving DecidableEq

/-- Errors of crossbeam_channel try_recv. -/
inductive TryRecvError where
  | Empty
  | Disconnected
deriving DecidableEq

/-- State of the capacity-1 crossbeam channel created by trap_stream
(src/futures.rs lines 42-47): the buffered signal, if any, and whether the
producer side (the handler closure holding the Sender) is still alive. -/
structure SignalStreamState where
  queued : Option Signal
  senderAlive : Bool
deriving DecidableEq

/-- crossbeam_channel Receiver::try_recv on the modelled channel state
(external collaborator): a buffered message is returned even after the
sender is dropped; an empty channel reports Empty while the sender lives and
Disconnected once it is dropped. -/
def try_recv (c : SignalStreamState) : Except TryRecvError Signal :=
  match c.queued with
  | some s => .ok s
  | none => if c.senderAlive then .error .Empty else .error .Disconnected

/-- SignalStream::poll (src/futures.rs lines 18-25): register the task, then
map try_recv's outcome; the task registration does not affect the returned
value and is not modelled. -/
def SignalStream.poll (c : SignalStreamState) : Async (Option Signal) :=
  match try_recv c with
  | .ok signal => .Ready (some signal)
  | .error .Empty => .NotReady
  | .error .Disconnected => .Ready none

/-! Helper lemmas -/

theorem push_trap_eq {H : Type} (n : Nat) (ttd : Option TrapThreadData)
    (cb : TrapCallbacks H) (signals : List Signal) (h : H)
    (newData : Except Error TrapThreadData) :
    (TrapStack.mk n ttd cb).push_trap signals h newData =
      if n = 0 then
        match newData with
        | .ok d => ((⟨1, some d, push_all h cb signals⟩ : TrapStack H), none)
        | .error e => ((⟨1, ttd, cb⟩ : TrapStack H), some e)
      else ((⟨n + 1, ttd, push_all h cb signals⟩ : TrapStack H), none) := by
  unfold TrapStack.push_trap TrapStack.increment_trap_count
  by_cases hn : n = 0
  · subst hn
    cases newData <;> simp
  · have h1 : ¬ (n + 1 = 1) := by omega
    simp [h1, hn]

theorem pop_trap_eq {H : Type} (n : Nat) (ttd : Option TrapThreadData)
    (cb : TrapCallbacks H) (signals : List Signal) :
    (TrapStack.mk n ttd cb).pop_trap signals =
      match n with
      | 0 => none
      | m + 1 =>
        match pop_all cb signals with
        | some cb2 => some ⟨m, if m = 0 then none else ttd, cb2⟩
        | none => none := by
  cases n <;> rfl

/-! Claim C1 -/

/-- C1: the claim states that a failed OS registration during push leaves the
TrapStack exactly in its prior state (all-or-nothing).  The code violates
this: increment_trap_count bumps num_traps before the fallible
TrapThreadData::new call and the question-mark operator propagates the error
without rolling the increment back.  Evaluating the code at the failing
input: TrapThreadData::new with a failing SetConsoleCtrlHandler call (OS
code 5) yields the SetConsoleCtrlHandler error, and push_trap on the initial
TrapStack (num_traps = 0) returns that error with num_traps left at 1, not
0; a subsequent push then takes num_traps to 2 without ever creating
listener state (trap_thread_data stays none), so the stack is permanently
inconsistent.  (The window-creation failure path never even returns
Error::CreateWindow: the source unwraps it inside the spawned thread and the
caller panics, see TrapThreadData.create.) -/
theorem c1_failed_registration_leaves_count_incremented :
    TrapThreadData.create (some 5) (Except.ok (1, 2)) =
      some (Except.error (Error.SetConsoleCtrlHandler 5)) ∧
    (TrapStack.new Nat).push_trap [Signal.CtrlC] 7
        (Except.error (Error.SetConsoleCtrlHandler 5)) =
      ({ num_traps := 1, trap_thread_data := none, callbacks := fun _ => none },
        some (Error.SetConsoleCtrlHandler 5)) ∧
    (TrapStack.new Nat).num_traps = 0 ∧
    TrapThreadData.create none (Except.error 5) = none ∧
    ((⟨1, none, fun _ => none⟩ : TrapStack Nat).push_trap [Signal.CtrlC] 8
        (Except.ok ⟨9, 9⟩)).1.trap_thread_data = none :=
  ⟨rfl, rfl, rfl, rfl, rfl⟩

/-! Claim C3 -/

/-- C3: the invariant that the listener state is present exactly when the
active scope count is positive (trap_thread_data none iff num_traps = 0)
holds in the initial TrapStack and is preserved by every successful
push_trap and by every completing pop_trap. -/
theorem c3_listener_iff_count_zero (H : Type) :
    ((TrapStack.new H).trap_thread_data = none ↔ (TrapStack.new H).num_traps = 0) ∧
    (∀ (st st' : TrapStack H) (signals : List Signal) (h : H)
        (newData : Except Error TrapThreadData),
      (st.trap_thread_data = none ↔ st.num_traps = 0) →
      st.push_trap signals h newData = (st', none) →
      (st'.trap_thread_data = none ↔ st'.num_traps = 0)) ∧
    (∀ (st st' : TrapStack H) (signals : List Signal),
      (st.trap_thread_data = none ↔ st.num_traps = 0) →
      st.pop_trap signals = some st' →
      (st'.trap_thread_data = none ↔ st'.num_traps = 0)) := by
  refine ⟨⟨fun _ => rfl, fun _ => rfl⟩, ?_, ?_⟩
  · rintro ⟨n, ttd, cb⟩ st' signals h newData hinv hp
    rw [push_trap_eq] at hp
    by_cases hn : n = 0
    · subst hn
      cases newData with
      | ok d =>
        simp only [if_pos rfl] at hp
        obtain ⟨rfl, -⟩ := Prod.mk.injEq .. ▸ hp
        simp
      | error e =>
        simp only [if_pos rfl] at hp
        exact absurd (congrArg Prod.snd hp) (by simp)
    · rw [if_neg hn] at hp
      obtain ⟨rfl, -⟩ := Prod.mk.injEq .. ▸ hp
      have hod : ttd ≠ none := fun he => hn (hinv.mp he)
      simp only [TrapStack.trap_thread_data, TrapStack.num_traps]
      constructor
      · intro he; exact absurd he hod
      · intro he; exact absurd he (by omega)
  · rintro ⟨n, ttd, cb⟩ st' signals hinv hp
    rw [pop_trap_eq] at hp
    cases n with
    | zero => exact absurd hp (by simp)
    | succ m =>
      cases hpa : pop_all cb signals with
      | none => rw [hpa] at hp; exact absurd hp (by simp)
      | some cb2 =>
        rw [hpa] at hp
        obtain rfl := (Option.some.injEq ..).mp hp
        by_cases hm : m = 0
        · subst hm; simp
        · have hod : ttd ≠ none := fun he => Nat.succ_ne_zero m (hinv.mp he)
          simp only [TrapStack.trap_thread_data, TrapStack.num_traps, if_neg hm]
          constructor
          · intro he; exact absurd he hod
          · intro he; exact absurd he hm

/-- Witness for C3: the invariant transported across a concrete successful
push from the initial state. -/
theorem c3_listener_iff_count_zero_witness :
    (((TrapStack.new Nat).push_trap [Signal.CtrlC] 0
        (Except.ok ⟨1, 2⟩)).1.trap_thread_data = none ↔
      ((TrapStack.new Nat).push_trap [Signal.CtrlC] 0
        (Except.ok ⟨1, 2⟩)).1.num_traps = 0) :=
  (c3_listener_iff_count_zero Nat).2.1 (TrapStack.new Nat) _ [Signal.CtrlC] 0
    (Except.ok ⟨1, 2⟩) ⟨fun _ => rfl, fun _ => rfl⟩ rfl

/-! Claim C7 -/

/-- C7 counterexample: the claim asserts that BOTH scope creation (Trap::new)
and scope destruction (Trap::drop) abort when run on a thread other than the
owner.  Trap::drop performs no owner-thread assertion at all: at a concrete
state, with owner thread 0 and current thread 1 (distinct), the drop
operation completes normally instead of aborting. -/
theorem c7_drop_has_no_thread_assertion :
    (0 : Nat) ≠ 1 ∧
    (trap_drop 0 1
      ({ num_traps := 1, trap_thread_data := some ⟨3, 4⟩,
         callbacks := fun t => if t = Signal.CtrlC then some [7] else none } :
        TrapStack Nat)
      [Signal.CtrlC]).isSome = true := by
  exact ⟨by decide, rfl⟩

/-- C7 amended: scope creation (Trap::new) on a thread whose identity differs
from the captured owner thread identity fails the owner-thread assertion for
all TrapStack states; scope destruction (Trap::drop) performs no runtime
assertion, cross-thread destruction being prevented statically by the
negative Send impl on the guard. -/
theorem c7_new_asserts_owner_thread (H : Type) (owner current : Nat)
    (hne : owner ≠ current) (st : TrapStack H) (signals : List Signal) (h : H)
    (newData : Except Error TrapThreadData) :
    trap_new owner current st signals h newData = none := by
  unfold trap_new
  rw [if_neg hne]

/-- Witness for the amended C7 theorem at a concrete cross-thread call. -/
theorem c7_new_asserts_owner_thread_witness :
    trap_new 0 1 (TrapStack.new Nat) [Signal.CtrlC] 5 (Except.ok ⟨1, 2⟩) = none :=
  c7_new_asserts_owner_thread Nat 0 1 (by decide) (TrapStack.new Nat)
    [Signal.CtrlC] 5 (Except.ok ⟨1, 2⟩)

/-! Claim C9 -/

/-- C9: polling the SignalStream returns Ready (some s) exactly when a signal
s is queued, NotReady when the queue is empty and the producer side is still
alive, and Ready none (stream ended) when the queue is empty and the
producer side has been dropped. -/
theorem c9_poll_cases (c : SignalStreamState) :
    (∀ s, c.queued = some s → SignalStream.poll c = .Ready (some s)) ∧
    (c.queued = none → c.senderAlive = true → SignalStream.poll c = .NotReady) ∧
    (c.queued = none → c.senderAlive = false → SignalStream.poll c = .Ready none) := by
  obtain ⟨q, a⟩ := c
  refine ⟨?_, ?_, ?_⟩
  · rintro s rfl
    rfl
  · rintro rfl rfl
    rfl
  · rintro rfl rfl
    rfl

/-- Witness for C9 at the three concrete channel states. -/
theorem c9_poll_cases_witness :
    SignalStream.poll ⟨some Signal.CtrlC, true⟩ = .Ready (some Signal.CtrlC) ∧
    SignalStream.poll ⟨none, true⟩ = .NotReady ∧
    SignalStream.poll ⟨none, false⟩ = .Ready none :=
  ⟨(c9_poll_cases ⟨some Signal.CtrlC, true⟩).1 Signal.CtrlC rfl,
   (c9_poll_cases ⟨none, true⟩).2.1 rfl rfl,
   (c9_poll_cases ⟨none, false⟩).2.2 rfl rfl⟩

/-! Claim C4 -/

/-- C4: the bridge callback invokes no handler itself (its invocation list is
empty in every case), and it reports handled (TRUE) exactly when the raw
event decodes to a known Signal, some handler is registered for that Signal,
listener state exists, and the forwarding post_message call succeeds; in
every other case it reports not handled (FALSE). -/
theorem c4_bridge_returns_handled_iff (H : Type) (st : TrapStack H)
    (event : Nat) (postOk : Bool) :
    (console_ctrl_handler st event postOk).2 = [] ∧
    ((console_ctrl_handler st event postOk).1 = true ↔
      ∃ s, Signal.from_console_ctrl_event event = some s ∧
        st.has_handler_for s = true ∧
        st.trap_thread_data.isSome = true ∧ postOk = true) := by
  unfold console_ctrl_handler
  cases hd : Signal.from_console_ctrl_event event with
  | none => simp [hd]
  | some s =>
    cases hh : st.has_handler_for s with
    | false => simp [hd, hh]
    | true =>
      cases ht : st.trap_thread_data with
      | none => simp [hd, hh, ht]
      | some d => cases postOk <;> simp [hd, hh, ht]

/-! Claim C8 -/

theorem from_console_ctrl_event_inv (e : Nat) (s : Signal)
    (h : Signal.from_console_ctrl_event e = some s) :
    consoleCtrlEventOf s = some e := by
  unfold Signal.from_console_ctrl_event at h
  split_ifs at h with h0 h1 h2
  · obtain rfl := (Option.some.injEq ..).mp h
    rw [h0]
    rfl
  · obtain rfl := (Option.some.injEq ..).mp h
    rw [h1]
    rfl
  · obtain rfl := (Option.some.injEq ..).mp h
    rw [h2]
    rfl

/-- C8: round-trip of the signal encoding. For each console-control variant,
decoding its native event code (directly, or as a forwarded WM_CONSOLE_CTRL
message, WM_CONSOLE_CTRL being a registered message code distinct from
WM_CLOSE) recovers the variant; a WM_CLOSE message decodes to CloseWindow;
any other message or control event decodes to none; and distinct raw codes
never decode to the same variant. -/
theorem c8_signal_roundtrip (wm : Nat) (hwm : wm ≠ WM_CLOSE) :
    (∀ (s : Signal) (e : Nat), consoleCtrlEventOf s = some e →
      Signal.from_console_ctrl_event e = some s ∧
      Signal.from_window_message wm wm e 0 = some s) ∧
    (∀ w l : Nat, Signal.from_window_message wm WM_CLOSE w l = some Signal.CloseWindow) ∧
    (∀ msg w l : Nat, msg ≠ WM_CLOSE → msg ≠ wm →
      Signal.from_window_message wm msg w l = none) ∧
    (∀ e : Nat, (∀ s : Signal, consoleCtrlEventOf s ≠ some e) →
      Signal.from_console_ctrl_event e = none) ∧
    (∀ (e1 e2 : Nat) (s : Signal), Signal.from_console_ctrl_event e1 = some s →
      Signal.from_console_ctrl_event e2 = some s → e1 = e2) := by
  refine ⟨?_, ?_, ?_, ?_, ?_⟩
  · intro s e he
    have hfc : Signal.from_console_ctrl_event e = some s := by
      cases s with
      | CtrlC =>
        obtain rfl := (Option.some.injEq ..).mp he
        rfl
      | CtrlBreak =>
        obtain rfl := (Option.some.injEq ..).mp he
        rfl
      | CloseConsole =>
        obtain rfl := (Option.some.injEq ..).mp he
        rfl
      | CloseWindow => exact Option.noConfusion he
    refine ⟨hfc, ?_⟩
    unfold Signal.from_window_message
    rw [if_neg hwm, if_pos rfl, hfc]
  · intro w l
    unfold Signal.from_window_message
    rw [if_pos rfl]
  · intro msg w l hc hm
    unfold Signal.from_window_message
    rw [if_neg hc, if_neg hm]
  · intro e he
    have h0 : e ≠ CTRL_C_EVENT := fun hc => he .CtrlC (by rw [hc]; rfl)
    have h1 : e ≠ CTRL_BREAK_EVENT := fun hc => he .CtrlBreak (by rw [hc]; rfl)
    have h2 : e ≠ CTRL_CLOSE_EVENT := fun hc => he .CloseConsole (by rw [hc]; rfl)
    unfold Signal.from_console_ctrl_event
    rw [if_neg h0, if_neg h1, if_neg h2]
  · intro e1 e2 s h1 h2
    have a1 := from_console_ctrl_event_inv e1 s h1
    have a2 := from_console_ctrl_event_inv e2 s h2
    rw [a1] at a2
    exact (Option.some.injEq ..).mp a2

/-- Witness for C8 at the concrete registered message code 0xC000. -/
theorem c8_signal_roundtrip_witness :
    Signal.from_console_ctrl_event 0 = some Signal.CtrlC ∧
    Signal.from_window_message 49152 49152 0 0 = some Signal.CtrlC ∧
    Signal.from_window_message 49152 WM_CLOSE 7 0 = some Signal.CloseWindow ∧
    Signal.from_window_message 49152 20 0 0 = none :=
  ⟨((c8_signal_roundtrip 49152 (by decide)).1 Signal.CtrlC 0 rfl).1,
   ((c8_signal_roundtrip 49152 (by decide)).1 Signal.CtrlC 0 rfl).2,
   (c8_signal_roundtrip 49152 (by decide)).2.1 7 0,
   (c8_signal_roundtrip 49152 (by decide)).2.2.1 20 0 0 (by decide) (by decide)⟩

/-! Claim C2 -/

theorem push_trap_success {H : Type} {st st' : TrapStack H} {signals : List Signal}
    {h : H} {newData : Except Error TrapThreadData}
    (hp : st.push_trap signals h newData = (st', none)) :
    st'.callbacks = push_all h st.callbacks signals ∧
    st'.num_traps = st.num_traps + 1 := by
  obtain ⟨n, ttd, cb⟩ := st
  rw [push_trap_eq] at hp
  by_cases hn : n = 0
  · subst hn
    cases newData with
    | ok d =>
      simp only [if_pos rfl] at hp
      obtain ⟨rfl, -⟩ := Prod.mk.injEq .. ▸ hp
      exact ⟨rfl, rfl⟩
    | error e =>
      simp only [if_pos rfl] at hp
      exact absurd (congrArg Prod.snd hp) (by simp)
  · rw [if_neg hn] at hp
    obtain ⟨rfl, -⟩ := Prod.mk.injEq .. ▸ hp
    exact ⟨rfl, rfl⟩

theorem push_all_not_mem {H : Type} (h : H) (signals : List Signal) :
    ∀ (cb : TrapCallbacks H) (s : Signal), s ∉ signals →
      push_all h cb signals s = cb s := by
  induction signals with
  | nil => intro cb s _; rfl
  | cons t rest ih =>
    intro cb s hs
    have hst : ¬ s = t := fun e => hs (by rw [e]; exact List.mem_cons_self t rest)
    have hr : s ∉ rest := fun m => hs (List.mem_cons_of_mem t m)
    show push_all h (entry_push_back cb t h) rest s = cb s
    rw [ih _ s hr]
    simp [entry_push_back, hst]

theorem push_all_mem_getLast {H : Type} (h : H) (signals : List Signal) :
    ∀ (cb : TrapCallbacks H) (s : Signal), s ∈ signals →
      ∃ l, push_all h cb signals s = some l ∧ l ≠ [] ∧ l.getLast? = some h := by
  induction signals with
  | nil => intro cb s hs; exact absurd hs (List.not_mem_nil s)
  | cons t rest ih =>
    intro cb s hs
    by_cases hm : s ∈ rest
    · exact ih (entry_push_back cb t h) s hm
    · have hst : s = t := by
        rcases List.mem_cons.mp hs with he | hm2
        · exact he
        · exact absurd hm2 hm
      subst hst
      show ∃ l, push_all h (entry_push_back cb s h) rest s = some l ∧
        l ≠ [] ∧ l.getLast? = some h
      rw [push_all_not_mem h rest _ s hm]
      refine ⟨(cb s).getD [] ++ [h], ?_, by simp, by simp⟩
      simp [entry_push_back]

/-- C2: the dispatch closure of the event pump invokes exactly one handler
per decoded signal, namely the back of that signal's stack (the result is a
single invoke of the list's last element), and push_trap appends its handler
at the back of the stack of every signal it registers, so immediately after
a successful push the invoked handler is the pushed one (innermost wins). -/
theorem c2_innermost_handler_invoked (H : Type) :
    (∀ (st : TrapStack H) (wm msg wp lp : Nat) (s : Signal) (l : List H) (cb : H)
        (ws : List Nat) (pidOf : Nat → Nat) (pid : Nat),
      Signal.from_window_message wm msg wp lp = some s →
      st.callbacks s = some l → l.getLast? = some cb →
      run_event_loop_step st wm msg wp lp ws pidOf pid = .invoke cb s) ∧
    (∀ (st st' : TrapStack H) (signals : List Signal) (h : H)
        (newData : Except Error TrapThreadData),
      st.push_trap signals h newData = (st', none) →
      ∀ s ∈ signals, ∃ l, st'.callbacks s = some l ∧ l ≠ [] ∧
        l.getLast? = some h) := by
  constructor
  · intro st wm msg wp lp s l cb ws pidOf pid hmsg hcb hlast
    simp only [run_event_loop_step, hmsg, hcb, hlast]
  · intro st st' signals h newData hp s hs
    obtain ⟨hcb, -⟩ := push_trap_success hp
    rw [hcb]
    exact push_all_mem_getLast h signals st.callbacks s hs

/-- Witness for C2: a concrete dispatch hitting the back of a two-element
stack, and a concrete push appending at the back. -/
theorem c2_innermost_handler_invoked_witness :
    run_event_loop_step
      ({ num_traps := 1, trap_thread_data := some ⟨1, 2⟩,
         callbacks := fun t => if t = Signal.CtrlC then some [3, 7] else none } :
        TrapStack Nat) 49152 49152 0 0 [] (fun w => w) 0 = .invoke 7 Signal.CtrlC ∧
    ∃ l, ((TrapStack.new Nat).push_trap [Signal.CtrlC] 9
        (Except.ok ⟨1, 2⟩)).1.callbacks Signal.CtrlC = some l ∧
      l ≠ [] ∧ l.getLast? = some 9 :=
  ⟨(c2_innermost_handler_invoked Nat).1 _ 49152 49152 0 0 Signal.CtrlC [3, 7] 7
      [] (fun w => w) 0 (by decide) rfl rfl,
   (c2_innermost_handler_invoked Nat).2 (TrapStack.new Nat) _ [Signal.CtrlC] 9
      (Except.ok ⟨1, 2⟩) rfl Signal.CtrlC (by decide)⟩

/-! Claim C6 -/

theorem enum_windows_false_iff (proc : Nat → Bool) (ws : List Nat) :
    enum_windows proc ws = false ↔ ∀ w ∈ ws, proc w = true := by
  unfold enum_windows
  induction ws with
  | nil => simp
  | cons w rest ih =>
    simp only [List.any_cons, Bool.or_eq_false_iff, ih, List.mem_cons]
    constructor
    · rintro ⟨h1, h2⟩ x (rfl | hx)
      · cases hpx : proc x
        · rw [hpx] at h1; exact absurd h1 (by simp)
        · rfl
      · exact h2 x hx
    · intro hall
      refine ⟨by rw [hall w (Or.inl rfl)]; rfl, fun x hx => hall x (Or.inr hx)⟩

theorem close_proc_true_iff (dh pid : Nat) (pidOf : Nat → Nat) (w : Nat) :
    ((if w = dh then true else if pidOf w = pid then false else true) = true) ↔
      (pidOf w = pid → w = dh) := by
  by_cases h1 : w = dh
  · simp [h1]
  · by_cases h2 : pidOf w = pid
    · simp [h1, h2]
    · simp [h1, h2]

/-- C6: when a WM_CLOSE message is pumped and no handler is registered for
CloseWindow, no handler is invoked; the process exits with status 0 exactly
when every window of this process in the enumeration is the listener's own
hidden window, and otherwise the message is ignored.  (The listener state is
present while the pump runs, per the invariant of claim C3.) -/
theorem c6_close_window_without_handler (H : Type) (st : TrapStack H)
    (d : TrapThreadData) (wm wp lp pid : Nat) (ws : List Nat) (pidOf : Nat → Nat)
    (hno : st.callbacks Signal.CloseWindow = none)
    (httd : st.trap_thread_data = some d) :
    (∀ (cb : H) (s : Signal),
      run_event_loop_step st wm WM_CLOSE wp lp ws pidOf pid ≠ .invoke cb s) ∧
    (run_event_loop_step st wm WM_CLOSE wp lp ws pidOf pid = .exitProcess ↔
      ∀ w ∈ ws, pidOf w = pid → w = d.hwnd) ∧
    ((¬ ∀ w ∈ ws, pidOf w = pid → w = d.hwnd) →
      run_event_loop_step st wm WM_CLOSE wp lp ws pidOf pid = .ignored) := by
  have hdec : Signal.from_window_message wm WM_CLOSE wp lp = some Signal.CloseWindow := by
    unfold Signal.from_window_message
    rw [if_pos rfl]
  have hwnds : (enum_windows (fun hwnd => if hwnd = d.hwnd then true
      else if pidOf hwnd = pid then false else true) ws = false) ↔
      ∀ w ∈ ws, pidOf w = pid → w = d.hwnd := by
    rw [enum_windows_false_iff]
    constructor
    · intro hall w hw
      exact (close_proc_true_iff d.hwnd pid pidOf w).mp (hall w hw)
    · intro hall w hw
      exact (close_proc_true_iff d.hwnd pid pidOf w).mpr (hall w hw)
  cases he : enum_windows (fun hwnd => if hwnd = d.hwnd then true
      else if pidOf hwnd = pid then false else true) ws with
  | false =>
    have hrun : run_event_loop_step st wm WM_CLOSE wp lp ws pidOf pid =
        DispatchResult.exitProcess := by
      simp only [run_event_loop_step, TrapStack.exit_if_only_window, hdec, hno,
        httd, he, reduceIte, Bool.not_false]
    refine ⟨fun cb s hc => ?_, ?_, fun hn => ?_⟩
    · rw [hrun] at hc
      exact DispatchResult.noConfusion hc
    · rw [hrun]
      exact ⟨fun _ => hwnds.mp he, fun _ => rfl⟩
    · exact absurd (hwnds.mp he) hn
  | true =>
    have hrun : run_event_loop_step st wm WM_CLOSE wp lp ws pidOf pid =
        DispatchResult.ignored := by
      simp only [run_event_loop_step, TrapStack.exit_if_only_window, hdec, hno,
        httd, he, reduceIte, Bool.not_true]
    refine ⟨fun cb s hc => ?_, ?_, fun hn => hrun⟩
    · rw [hrun] at hc
      exact DispatchResult.noConfusion hc
    · rw [hrun]
      constructor
      · intro hc
        exact DispatchResult.noConfusion hc
      · intro hall
        have := hwnds.mpr hall
        rw [he] at this
        exact absurd this (by simp)

/-- Witness for C6: a concrete state where the listener's hidden window (2)
is the only window of process 0, so a handlerless WM_CLOSE exits. -/
theorem c6_close_window_without_handler_witness :
    run_event_loop_step
      ({ num_traps := 1, trap_thread_data := some ⟨1, 2⟩,
         callbacks := fun _ => none } : TrapStack Nat)
      49152 WM_CLOSE 0 0 [2, 5] (fun w => if w = 5 then 9 else 0) 0 =
      DispatchResult.exitProcess :=
  (c6_close_window_without_handler Nat _ ⟨1, 2⟩ 49152 0 0 0 [2, 5]
      (fun w => if w = 5 then 9 else 0) rfl rfl).2.1.mpr (by decide)

/-! Well-formedness of the callbacks map (used by claims C5 and C10) -/

theorem wf_entry_push_back {H : Type} {cb : TrapCallbacks H} (hw : WFcb cb)
    (s : Signal) (h : H) : WFcb (entry_push_back cb s h) := by
  intro t
  unfold entry_push_back
  by_cases ht : t = s
  · rw [if_pos ht]
    simp
  · rw [if_neg ht]
    exact hw t

theorem wf_push_all {H : Type} (h : H) (signals : List Signal) :
    ∀ {cb : TrapCallbacks H}, WFcb cb → WFcb (push_all h cb signals) := by
  induction signals with
  | nil => intro cb hw; exact hw
  | cons t rest ih => intro cb hw; exact ih (wf_entry_push_back hw t h)

theorem wf_pop_back_at {H : Type} {cb cb' : TrapCallbacks H} {s : Signal}
    (hw : WFcb cb) (hp : pop_back_at cb s = some cb') : WFcb cb' := by
  unfold pop_back_at at hp
  split at hp
  · exact Option.noConfusion hp
  · rename_i l hcs
    split at hp
    · exact Option.noConfusion hp
    · obtain rfl := (Option.some.injEq ..).mp hp
      intro t
      by_cases ht : t = s
      · simp only [if_pos ht]
        by_cases hd : l.dropLast.isEmpty = true
        · rw [if_pos hd]
          exact fun hc => Option.noConfusion hc
        · rw [if_neg hd]
          intro hc
          exact hd (by rw [(Option.some.injEq ..).mp hc]; rfl)
      · simp only [if_neg ht]
        exact hw t

theorem wf_pop_all {H : Type} (signals : List Signal) :
    ∀ {cb cb' : TrapCallbacks H}, WFcb cb → pop_all cb signals = some cb' →
      WFcb cb' := by
  induction signals with
  | nil =>
    intro cb cb' hw hp
    obtain rfl := (Option.some.injEq ..).mp hp
    exact hw
  | cons t rest ih =>
    intro cb cb' hw hp
    simp only [pop_all] at hp
    cases hpb : pop_back_at cb t with
    | none => rw [hpb] at hp; exact Option.noConfusion hp
    | some cb1 =>
      rw [hpb] at hp
      exact ih (wf_pop_back_at hw hpb) hp

/-! Claim C10 -/

theorem reachable_wf {H : Type} {st : TrapStack H} (hr : Reachable H st) :
    WFcb st.callbacks := by
  induction hr with
  | init => exact fun s hc => Option.noConfusion hc
  | push st signals h newData hr ih =>
    obtain ⟨n, ttd, cb⟩ := st
    rw [push_trap_eq]
    by_cases hn : n = 0
    · subst hn
      cases newData with
      | ok d => simpa using wf_push_all h signals ih
      | error e => simpa using ih
    · rw [if_neg hn]
      exact wf_push_all h signals ih
  | pop st st1 signals hr hp ih =>
    obtain ⟨n, ttd, cb⟩ := st
    rw [pop_trap_eq] at hp
    cases n with
    | zero => exact Option.noConfusion hp
    | succ m =>
      cases hpa : pop_all cb signals with
      | none => rw [hpa] at hp; exact Option.noConfusion hp
      | some cb2 =>
        rw [hpa] at hp
        obtain rfl := (Option.some.injEq ..).mp hp
        exact wf_pop_all signals ih hpa

/-- C10: in every reachable TrapStack state the callbacks map stores no
empty handler list (a present key always maps to a non-empty stack), so
has_handler_for s holds exactly when at least one live handler is registered
for s; push_trap only creates or extends non-empty lists and pop_trap
removes a key as soon as its list empties, which is what preserves this. -/
theorem c10_no_empty_handler_lists (H : Type) (st : TrapStack H)
    (hr : Reachable H st) :
    WFcb st.callbacks ∧
    (∀ s, st.has_handler_for s = true ↔ (st.callbacks s).getD [] ≠ []) := by
  have hw := reachable_wf hr
  refine ⟨hw, fun s => ?_⟩
  unfold TrapStack.has_handler_for
  cases hcs : st.callbacks s with
  | none => simp
  | some l =>
    have hl : l ≠ [] := fun he => hw s (by rw [hcs, he])
    simp [hl]

/-- Witness for C10 at the concrete reachable state produced by one push. -/
theorem c10_no_empty_handler_lists_witness :
    WFcb ((TrapStack.new Nat).push_trap [Signal.CtrlC] 7
        (Except.ok ⟨1, 2⟩)).1.callbacks ∧
    (∀ s, ((TrapStack.new Nat).push_trap [Signal.CtrlC] 7
        (Except.ok ⟨1, 2⟩)).1.has_handler_for s = true ↔
      (((TrapStack.new Nat).push_trap [Signal.CtrlC] 7
        (Except.ok ⟨1, 2⟩)).1.callbacks s).getD [] ≠ []) :=
  c10_no_empty_handler_lists Nat _
    (Reachable.push (TrapStack.new Nat) [Signal.CtrlC] 7 (Except.ok ⟨1, 2⟩)
      Reachable.init)

/-! Claim C5 -/

theorem push_all_extra {H : Type} (h : H) (signals : List Signal) :
    ∀ (a b : TrapCallbacks H) (t : Signal),
      (∀ s, s ≠ t → a s = b s) → a t = some ((b t).getD [] ++ [h]) →
      (∀ s, s ≠ t → push_all h a signals s = push_all h b signals s) ∧
      push_all h a signals t = some ((push_all h b signals t).getD [] ++ [h]) := by
  induction signals with
  | nil => intro a b t hne ht; exact ⟨fun s hs => hne s hs, ht⟩
  | cons u rest ih =>
    intro a b t hne ht
    simp only [push_all]
    apply ih
    · intro s hs
      unfold entry_push_back
      by_cases hsu : s = u
      · have hut : u ≠ t := by rw [← hsu]; exact hs
        rw [if_pos hsu, if_pos hsu, hne u hut]
      · rw [if_neg hsu, if_neg hsu]
        exact hne s hs
    · unfold entry_push_back
      by_cases htu : t = u
      · rw [if_pos htu, if_pos htu]
        subst htu
        rw [ht]
      · rw [if_neg htu, if_neg htu]
        exact ht

theorem pop_back_at_concat {H : Type} (cb : TrapCallbacks H) (t : Signal)
    (l0 : List H) (h : H) (hct : cb t = some (l0 ++ [h])) :
    pop_back_at cb t = some (fun u =>
      if u = t then (if l0.isEmpty then none else some l0) else cb u) := by
  have hie : (l0 ++ [h]).isEmpty = false := by simp
  have hdl : (l0 ++ [h]).dropLast = l0 := by simp
  simp only [pop_back_at, hct, hie, hdl, Bool.false_eq_true, if_false]

theorem pop_all_push_all {H : Type} (h : H) :
    ∀ (signals : List Signal) (cb : TrapCallbacks H), WFcb cb →
      pop_all (push_all h cb signals) signals = some cb := by
  intro signals
  induction signals with
  | nil => intro cb _; rfl
  | cons t rest ih =>
    intro cb hw
    simp only [push_all, pop_all]
    obtain ⟨hside, hatt⟩ := push_all_extra h rest (entry_push_back cb t h) cb t
      (fun s hs => by unfold entry_push_back; rw [if_neg hs])
      (by unfold entry_push_back; rw [if_pos rfl])
    rw [pop_back_at_concat _ t ((push_all h cb rest t).getD []) h hatt]
    have hfun : (fun u =>
        if u = t then
          (if ((push_all h cb rest t).getD []).isEmpty then none
           else some ((push_all h cb rest t).getD []))
        else push_all h (entry_push_back cb t h) rest u) = push_all h cb rest := by
      funext u
      by_cases hu : u = t
      · subst hu
        rw [if_pos rfl]
        cases hbt : push_all h cb rest u with
        | none => simp [hbt]
        | some lb =>
          cases lb with
          | nil => exact absurd hbt (wf_push_all h rest hw u)
          | cons x xs => simp [hbt]
      · rw [if_neg hu]
        exact hside u hu
    rw [hfun]
    exact ih cb hw

/-- C5: for every TrapStack state satisfying the callbacks representation
invariant (no empty stored list, which holds in all reachable states per
claim C10) and every signal list, a pop_trap immediately after a successful
push_trap completes and restores num_traps and the callbacks map to their
values before the push; when the push was the outermost activation
(num_traps was zero), the pop leaves the count at zero and no listener
state. -/
theorem c5_pop_reverses_push (H : Type) (st st' : TrapStack H)
    (signals : List Signal) (h : H) (newData : Except Error TrapThreadData)
    (hwf : WFcb st.callbacks)
    (hp : st.push_trap signals h newData = (st', none)) :
    ∃ st'', st'.pop_trap signals = some st'' ∧
      st''.num_traps = st.num_traps ∧
      (∀ s, st''.callbacks s = st.callbacks s) ∧
      (st.num_traps = 0 → st''.num_traps = 0 ∧ st''.trap_thread_data = none) := by
  obtain ⟨n, ttd, cb⟩ := st
  rw [push_trap_eq] at hp
  by_cases hn : n = 0
  · subst hn
    cases newData with
    | ok d =>
      simp only [if_pos rfl] at hp
      obtain ⟨rfl, -⟩ := Prod.mk.injEq .. ▸ hp
      refine ⟨⟨0, none, cb⟩, ?_, rfl, fun s => rfl, fun _ => ⟨rfl, rfl⟩⟩
      have hpop : (⟨1, some d, push_all h cb signals⟩ : TrapStack H).pop_trap signals =
          match pop_all (push_all h cb signals) signals with
          | some cb2 => some ⟨0, none, cb2⟩
          | none => none := rfl
      rw [hpop, pop_all_push_all h signals cb hwf]
    | error e =>
      simp only [if_pos rfl] at hp
      exact absurd (congrArg Prod.snd hp) (by simp)
  · rw [if_neg hn] at hp
    obtain ⟨rfl, -⟩ := Prod.mk.injEq .. ▸ hp
    refine ⟨⟨n, ttd, cb⟩, ?_, rfl, fun s => rfl, fun h0 => absurd h0 hn⟩
    have hpop : (⟨n + 1, ttd, push_all h cb signals⟩ : TrapStack H).pop_trap signals =
        match pop_all (push_all h cb signals) signals with
        | some cb2 => some ⟨n, if n = 0 then none else ttd, cb2⟩
        | none => none := rfl
    rw [hpop, pop_all_push_all h signals cb hwf, if_neg hn]

/-- Witness for C5: push then pop of a single CtrlC trap on the initial
TrapStack. -/
theorem c5_pop_reverses_push_witness :
    ∃ st'', ((TrapStack.new Nat).push_trap [Signal.CtrlC] 5
        (Except.ok ⟨1, 2⟩)).1.pop_trap [Signal.CtrlC] = some st'' ∧
      st''.num_traps = (TrapStack.new Nat).num_traps ∧
      (∀ s, st''.callbacks s = (TrapStack.new Nat).callbacks s) ∧
      ((TrapStack.new Nat).num_traps = 0 → st''.num_traps = 0 ∧
        st''.trap_thread_data = none) :=
  c5_pop_reverses_push Nat (TrapStack.new Nat) _ [Signal.CtrlC] 5
    (Except.ok ⟨1, 2⟩) (fun _ hc => Option.noConfusion hc) rfl

end Wintrap
